import Mathlib

/-!
Verification development for the sales-ledger repository
(files `AnaliseVendasEdu.py` and `RelatorioFinalEdu.py`).

Modelling conventions of the shallow embedding:

* Python `float` values (unit prices, totals) are embedded as exact
  rationals `ℚ`; Python `int` is embedded as `Int` (validation
  `isinstance(quantidade, int)` / `isinstance(valor_unitario, (int, float))`
  is reflected by the Lean types of the arguments).
* Python strings are Lean `String`s; the string operations used by the
  code (`strip`, `lower`, `in`, slicing, `split('-')`, comparison) are
  embedded as executable functions on `List Char` below.
* Python `dict` (insertion-ordered, as used through `defaultdict`) is
  embedded as an association list `List (key × value)` where a new key is
  appended at the end and an existing key is updated in place.
* The module-level mutable state of `AnaliseVendasEdu.py`
  (`vendas`, `contador_id`) and the `SistemaVendas` object state of
  `RelatorioFinalEdu.py` are embedded as explicit state values threaded
  through `registrar_venda`.
* Python `round(x, 2)` (decimal rounding, ties to even) is embedded as
  `round2` on `ℚ`.
-/

/-- Python `str.strip()` on the character list: drop whitespace from both ends. -/
def stripChars (cs : List Char) : List Char :=
  ((cs.dropWhile Char.isWhitespace).reverse.dropWhile Char.isWhitespace).reverse

/-- Python `str.strip()` as used on `produto`/`vendedor` in both variants. -/
def strip (s : String) : String := ⟨stripChars s.toList⟩

/-- Python `str.lower()` (ASCII case folding) on a character list. -/
def toLowerList (cs : List Char) : List Char := cs.map Char.toLower

/-- Boolean test that the first list is a prefix of the second. -/
def prefixoDe : List Char → List Char → Bool
  | [], _ => true
  | _ :: _, [] => false
  | a :: as, b :: bs => a == b && prefixoDe as bs

/-- Boolean test that the first list occurs as a contiguous sublist of the
second: the Python `in` operator on strings. -/
def contidoEm (agulha : List Char) : List Char → Bool
  | [] => prefixoDe agulha []
  | c :: t => prefixoDe agulha (c :: t) || contidoEm agulha t

/-- Python `nome.lower() in vendedor.lower()`: case-insensitive substring
containment, used by `gerar_relatorio_vendedor` in both variants. -/
def isSubCI (nome vendedor : String) : Bool :=
  contidoEm (toLowerList nome.toList) (toLowerList vendedor.toList)

/-- Lexicographic order on character lists by code point, shorter prefix
first: Python string comparison, used by `sorted(stats.items())`. -/
def lexLe : List Char → List Char → Bool
  | [], _ => true
  | _ :: _, [] => false
  | a :: as, b :: bs =>
    if a.toNat < b.toNat then true
    else if b.toNat < a.toNat then false
    else lexLe as bs

/-- Python `≤` on strings (lexicographic by code point). -/
def strLe (a b : String) : Bool := lexLe a.toList b.toList

/-- Floor of a rational as an integer (used by `round2`). -/
def ratFloor (q : ℚ) : ℤ := q.num.fdiv q.den

/-- Round a rational to the nearest integer, ties to even. -/
def roundHalfEven (q : ℚ) : ℤ :=
  let f := ratFloor q
  let r := q - (f : ℚ)
  if r < 1/2 then f
  else if 1/2 < r then f + 1
  else if f % 2 = 0 then f else f + 1

/-- Python `round(x, 2)`: decimal rounding to two places, ties to even. -/
def round2 (q : ℚ) : ℚ := (roundHalfEven (q * 100) : ℚ) / 100

namespace AnaliseVendas

/-!
Embedding of the module-level variant `AnaliseVendasEdu.py`.
The aggregation and report functions of `RelatorioFinalEdu.py`
(`SistemaVendas.calcular_total_vendas`, `calcular_vendas_por_vendedor`,
`calcular_vendas_por_produto`, `calcular_vendas_por_mes`,
`ranking_vendedores`, `melhor_mes`, `gerar_relatorio_vendedor`) have
bodies identical to the module-level ones except that they read
`self.vendas`; the functions below, which take the `vendas` list as an
explicit argument, embed both.
-/

/-- One record of the `vendas` list built by `registrar_venda`
(`AnaliseVendasEdu.py`, lines 52-60). -/
structure Venda where
  id : Nat
  produto : String
  vendedor : String
  quantidade : Int
  valor_unitario : ℚ
  valor_total : ℚ
  data : String
deriving DecidableEq

/-- The module-level mutable state `vendas` / `contador_id`. -/
structure Estado where
  vendas : List Venda
  contador_id : Nat
deriving DecidableEq

/-- Initial module state: `vendas = []`, `contador_id = 1`. -/
def estadoInicial : Estado := ⟨[], 1⟩

/-- `registrar_venda` of `AnaliseVendasEdu.py` (lines 18-67): sequential
validation (text truthiness, positive integer quantity, positive price,
date shape `len == 10` with dashes at indices 4 and 7), then
`valor_total = quantidade * valor_unitario` (no rounding), append, and
increment of `contador_id`.  Returns the created record (or `none`)
together with the updated state. -/
def registrar_venda (produto vendedor : String) (quantidade : Int)
    (valor_unitario : ℚ) (data : String) (s : Estado) : Option Venda × Estado :=
  if produto = "" ∨ vendedor = "" ∨ data = "" then (none, s)
  else if quantidade ≤ 0 then (none, s)
  else if valor_unitario ≤ 0 then (none, s)
  else if ¬ (data.toList.length = 10 ∧ data.toList[4]? = some '-' ∧ data.toList[7]? = some '-')
    then (none, s)
  else
    let valor_total := (quantidade : ℚ) * valor_unitario
    let venda : Venda := ⟨s.contador_id, strip produto, strip vendedor,
      quantidade, valor_unitario, valor_total, data⟩
    (some venda, ⟨s.vendas ++ [venda], s.contador_id + 1⟩)

/-- The conjunction of the four validation checks of
`AnaliseVendas.registrar_venda`. -/
def EntradaValida (produto vendedor : String) (quantidade : Int)
    (valor_unitario : ℚ) (data : String) : Prop :=
  ¬ (produto = "" ∨ vendedor = "" ∨ data = "") ∧ 0 < quantidade ∧ 0 < valor_unitario ∧
    (data.toList.length = 10 ∧ data.toList[4]? = some '-' ∧ data.toList[7]? = some '-')

instance (p v : String) (q : Int) (u : ℚ) (d : String) :
    Decidable (EntradaValida p v q u d) := by
  unfold EntradaValida; infer_instance

/-- `calcular_total_vendas` (lines 73-83): `0.0` on an empty ledger, else
the sum of the stored `valor_total` fields. -/
def calcular_total_vendas (vendas : List Venda) : ℚ :=
  if vendas = [] then 0 else (vendas.map (·.valor_total)).sum

/-- One step of the `defaultdict` accumulation of
`calcular_vendas_por_vendedor`: add `valor` and one transaction to the
seller's entry, creating it at the end on first appearance. -/
def atualizaVendedor (vendedor : String) (valor : ℚ) :
    List (String × ℚ × Nat) → List (String × ℚ × Nat)
  | [] => [(vendedor, valor, 1)]
  | (k, t, c) :: rest =>
    if k = vendedor then (k, t + valor, c + 1) :: rest
    else (k, t, c) :: atualizaVendedor vendedor valor rest

/-- Per-seller aggregate produced by `calcular_vendas_por_vendedor`. -/
structure StatsVendedor where
  total_vendas : ℚ
  quantidade_vendas : Nat
  valor_medio : ℚ
deriving DecidableEq

/-- `calcular_vendas_por_vendedor` (lines 85-106): group by exact seller
string, summing `valor_total` and counting records, then attach
`valor_medio = total / count` (`0.0` when the count is zero). -/
def calcular_vendas_por_vendedor (vendas : List Venda) : List (String × StatsVendedor) :=
  let stats := vendas.foldl (fun acc v => atualizaVendedor v.vendedor v.valor_total acc) []
  stats.map (fun p => (p.1, ⟨p.2.1, p.2.2, if p.2.2 > 0 then p.2.1 / (p.2.2 : ℚ) else 0⟩))

/-- One step of the `defaultdict` accumulation of
`calcular_vendas_por_produto`. -/
def atualizaProduto (produto : String) (valor : ℚ) (qtd : Int) :
    List (String × ℚ × Int) → List (String × ℚ × Int)
  | [] => [(produto, valor, qtd)]
  | (k, t, q) :: rest =>
    if k = produto then (k, t + valor, q + qtd) :: rest
    else (k, t, q) :: atualizaProduto produto valor qtd rest

/-- Per-product aggregate produced by `calcular_vendas_por_produto`. -/
structure StatsProduto where
  total_vendido : ℚ
  quantidade_vendida : Int
  receita : ℚ
deriving DecidableEq

/-- `calcular_vendas_por_produto` (lines 108-126): group by exact product
string, summing `valor_total` and `quantidade`, then copy the revenue
into the `receita` field. -/
def calcular_vendas_por_produto (vendas : List Venda) : List (String × StatsProduto) :=
  let stats := vendas.foldl (fun acc v => atualizaProduto v.produto v.valor_total v.quantidade acc) []
  stats.map (fun p => (p.1, ⟨p.2.1, p.2.2, p.2.1⟩))

/-- `extrair_mes` (lines 427-440): the first seven characters of the date
string when it is long enough. -/
def extrair_mes (data : String) : String :=
  if data.toList.length ≥ 7 then ⟨data.toList.take 7⟩ else "Data Inválida"

/-- One step of the `defaultdict(float)` accumulation of
`calcular_vendas_por_mes`. -/
def atualizaMes (mes : String) (valor : ℚ) :
    List (String × ℚ) → List (String × ℚ)
  | [] => [(mes, valor)]
  | (k, t) :: rest =>
    if k = mes then (k, t + valor) :: rest
    else (k, t) :: atualizaMes mes valor rest

/-- Insert one keyed pair into a key-sorted list (`sorted` helper). -/
def insereOrdenado (p : String × ℚ) : List (String × ℚ) → List (String × ℚ)
  | [] => [p]
  | q :: rest => if strLe p.1 q.1 then p :: q :: rest else q :: insereOrdenado p rest

/-- Python `sorted(stats.items())`: sort the association list by key. -/
def ordenaPorChave : List (String × ℚ) → List (String × ℚ)
  | [] => []
  | p :: rest => insereOrdenado p (ordenaPorChave rest)

/-- `calcular_vendas_por_mes` (lines 128-141): group `valor_total` by the
`YYYY-MM` prefix of the date, returning the mapping in ascending key
order. -/
def calcular_vendas_por_mes (vendas : List Venda) : List (String × ℚ) :=
  ordenaPorChave (vendas.foldl (fun acc v => atualizaMes (extrair_mes v.data) v.valor_total acc) [])

/-- Stable descending insertion by `total_vendas` (`sorted` with
`reverse=True` keeps earlier entries first on ties). -/
def insereDescVendedor (p : String × StatsVendedor) :
    List (String × StatsVendedor) → List (String × StatsVendedor)
  | [] => [p]
  | q :: rest =>
    if q.2.total_vendas ≤ p.2.total_vendas then p :: q :: rest
    else q :: insereDescVendedor p rest

/-- Python `sorted(stats_lista, key=..., reverse=True)` for sellers. -/
def ordenaDescVendedores : List (String × StatsVendedor) → List (String × StatsVendedor)
  | [] => []
  | p :: rest => insereDescVendedor p (ordenaDescVendedores rest)

/-- `ranking_vendedores` (lines 147-165): sort seller aggregates by
descending total and return the first `limite` pairs
`(vendedor, total_vendas)`. -/
def ranking_vendedores (limite : Nat) (vendas : List Venda) : List (String × ℚ) :=
  ((ordenaDescVendedores (calcular_vendas_por_vendedor vendas)).take limite).map
    (fun p => (p.1, p.2.total_vendas))

/-- Python `max(items, key=lambda item: item[1])`: scan keeping the
current element unless a strictly greater value appears, so the first
maximal element wins. -/
def maxPorValor (b : String × ℚ) : List (String × ℚ) → String × ℚ
  | [] => b
  | x :: rest => maxPorValor (if b.2 < x.2 then x else b) rest

/-- `melhor_mes` (lines 186-198): `(None, 0.0)` on an empty mapping, else
the month of maximal total. -/
def melhor_mes (vendas : List Venda) : Option String × ℚ :=
  match calcular_vendas_por_mes vendas with
  | [] => (none, 0)
  | x :: rest => (some (maxPorValor x rest).1, (maxPorValor x rest).2)

/-- The report record returned by `gerar_relatorio_vendedor`. -/
structure RelatorioVendedor where
  nome : String
  total_vendas : ℚ
  quantidade_transacoes : Nat
  valor_medio_transacao : ℚ
  produtos_vendidos : List (String × Int)
  lista_vendas : List Venda
deriving DecidableEq

/-- One step of the `defaultdict(int)` accumulation of
`produtos_vendidos` inside `gerar_relatorio_vendedor`. -/
def atualizaQtd (produto : String) (qtd : Int) :
    List (String × Int) → List (String × Int)
  | [] => [(produto, qtd)]
  | (k, q) :: rest =>
    if k = produto then (k, q + qtd) :: rest
    else (k, q) :: atualizaQtd produto qtd rest

/-- `gerar_relatorio_vendedor` (lines 226-263): filter the ledger to the
records whose seller contains the query case-insensitively; `none` when
nothing matches, otherwise the aggregate report whose canonical name is
the seller of the first match. -/
def gerar_relatorio_vendedor (nome_vendedor : String) (vendas : List Venda) :
    Option RelatorioVendedor :=
  match vendas.filter (fun v => isSubCI nome_vendedor v.vendedor) with
  | [] => none
  | m :: ms =>
    let total := ((m :: ms).map (·.valor_total)).sum
    let qtd := (m :: ms).length
    some { nome := m.vendedor
           total_vendas := total
           quantidade_transacoes := qtd
           valor_medio_transacao := if qtd > 0 then total / (qtd : ℚ) else 0
           produtos_vendidos := (m :: ms).foldl (fun acc v => atualizaQtd v.produto v.quantidade acc) []
           lista_vendas := m :: ms }

end AnaliseVendas

namespace RelatorioFinal

/-!
Embedding of the class-based variant `RelatorioFinalEdu.py`
(`SistemaVendas`).  Only the parts that differ from the module-level
variant are embedded here: `registrar_venda` rounds the total with
`round(quantidade * valor_unitario, 2)` and validates the date with
`datetime.strptime(data, "%Y-%m-%d")`.
-/

/-- Number of days of a month (`datetime` calendar, proleptic Gregorian). -/
def diasNoMes (y m : Nat) : Nat :=
  if m = 2 then (if (y % 4 = 0 ∧ y % 100 ≠ 0) ∨ y % 400 = 0 then 29 else 28)
  else if m = 4 ∨ m = 6 ∨ m = 9 ∨ m = 11 then 30 else 31

/-- Python `str.split('-')` on a character list. -/
def separaHifen : List Char → List (List Char)
  | [] => [[]]
  | c :: rest =>
    let r := separaHifen rest
    if c = '-' then [] :: r
    else
      match r with
      | [] => [[c]]
      | g :: gs => (c :: g) :: gs

/-- Decimal value of a digit list. -/
def digitosParaNat (cs : List Char) : Nat :=
  cs.foldl (fun n c => n * 10 + (c.toNat - 48)) 0

/-- Models Python `datetime.strptime(data, "%Y-%m-%d")` followed by the
`datetime` constructor: the year is exactly four digits (and at least 1,
`datetime.MINYEAR`), month and day are one or two digits, the month is
in `1..12` and the day is in `1..days_in_month`; any other string raises
`ValueError`, embedded as `none`. -/
def strptimeYMD (data : String) : Option (Nat × Nat × Nat) :=
  match separaHifen data.toList with
  | [yc, mc, dc] =>
    if yc.length = 4 ∧ yc.all Char.isDigit ∧
       (mc.length = 1 ∨ mc.length = 2) ∧ mc.all Char.isDigit ∧
       (dc.length = 1 ∨ dc.length = 2) ∧ dc.all Char.isDigit then
      let y := digitosParaNat yc
      let m := digitosParaNat mc
      let d := digitosParaNat dc
      if 1 ≤ y ∧ 1 ≤ m ∧ m ≤ 12 ∧ 1 ≤ d ∧ d ≤ diasNoMes y m then some (y, m, d)
      else none
    else none
  | _ => none

/-- Left-pad a numeral with zeros to the given width. -/
def preencheZeros (width n : Nat) : String :=
  let s := toString n
  ⟨List.replicate (width - s.toList.length) '0' ++ s.toList⟩

/-- `data_obj.strftime("%Y-%m-%d")`: canonical zero-padded rendering. -/
def formataYMD (y m d : Nat) : String :=
  preencheZeros 4 y ++ "-" ++ preencheZeros 2 m ++ "-" ++ preencheZeros 2 d

/-- One record of `self.vendas` built by `SistemaVendas.registrar_venda`
(`RelatorioFinalEdu.py`, lines 107-116); the parsed `datetime` object is
embedded as the `(year, month, day)` triple. -/
structure Venda where
  id : Nat
  produto : String
  vendedor : String
  quantidade : Int
  valor_unitario : ℚ
  valor_total : ℚ
  data_str : String
  data_obj : Nat × Nat × Nat
deriving DecidableEq

/-- The `SistemaVendas` object state. -/
structure Sistema where
  vendas : List Venda
  contador_id : Nat
deriving DecidableEq

/-- `SistemaVendas.__init__`: empty ledger, counter 1. -/
def sistemaInicial : Sistema := ⟨[], 1⟩

/-- `SistemaVendas.registrar_venda` (lines 65-122): the same text,
quantity and price checks as the module-level variant, then strict
calendar parsing of the date, `valor_total = round(quantidade *
valor_unitario, 2)`, append, and counter increment. -/
def registrar_venda (produto vendedor : String) (quantidade : Int)
    (valor_unitario : ℚ) (data : String) (s : Sistema) : Option Venda × Sistema :=
  if produto = "" ∨ vendedor = "" ∨ data = "" then (none, s)
  else if quantidade ≤ 0 then (none, s)
  else if valor_unitario ≤ 0 then (none, s)
  else
    match strptimeYMD data with
    | none => (none, s)
    | some (y, m, d) =>
      let valor_total := round2 ((quantidade : ℚ) * valor_unitario)
      let venda : Venda := ⟨s.contador_id, strip produto, strip vendedor,
        quantidade, valor_unitario, valor_total, formataYMD y m d, (y, m, d)⟩
      (some venda, ⟨s.vendas ++ [venda], s.contador_id + 1⟩)

/-- The conjunction of the validation checks of
`SistemaVendas.registrar_venda`. -/
def EntradaValida (produto vendedor : String) (quantidade : Int)
    (valor_unitario : ℚ) (data : String) : Prop :=
  ¬ (produto = "" ∨ vendedor = "" ∨ data = "") ∧ 0 < quantidade ∧ 0 < valor_unitario ∧
    strptimeYMD data ≠ none

instance (p v : String) (q : Int) (u : ℚ) (d : String) :
    Decidable (EntradaValida p v q u d) := by
  unfold EntradaValida; infer_instance

end RelatorioFinal

/-- One raw insertion request: the five arguments of `registrar_venda`. -/
structure Entrada where
  produto : String
  vendedor : String
  quantidade : Int
  valor_unitario : ℚ
  data : String

/-- Run one insertion against the module-level state, keeping only the
state (the caller of `registrar_venda` may also ignore the returned
record). -/
def AnaliseVendas.passo (s : AnaliseVendas.Estado) (e : Entrada) : AnaliseVendas.Estado :=
  (AnaliseVendas.registrar_venda e.produto e.vendedor e.quantidade e.valor_unitario e.data s).2

/-- Run a sequence of insertions from the fresh module state. -/
def AnaliseVendas.executa (es : List Entrada) : AnaliseVendas.Estado :=
  es.foldl AnaliseVendas.passo AnaliseVendas.estadoInicial

/-- Run one insertion against a `SistemaVendas` object. -/
def RelatorioFinal.passo (s : RelatorioFinal.Sistema) (e : Entrada) : RelatorioFinal.Sistema :=
  (RelatorioFinal.registrar_venda e.produto e.vendedor e.quantidade e.valor_unitario e.data s).2

/-- Run a sequence of insertions from a freshly constructed object. -/
def RelatorioFinal.executa (es : List Entrada) : RelatorioFinal.Sistema :=
  es.foldl RelatorioFinal.passo RelatorioFinal.sistemaInicial

/-! ### Demonstration data (used by the concrete witnesses below) -/

/-- Ledger record produced by the module-level `registrar_venda` for the
sample input `("Notebook", "Maria Silva", 2, 3500.00, "2024-01-15")`. -/
def vendaNotebookA : AnaliseVendas.Venda :=
  ⟨1, "Notebook", "Maria Silva", 2, 3500, 7000, "2024-01-15"⟩

/-- The same sample insertion as seen by `SistemaVendas.registrar_venda`. -/
def vendaNotebookS : RelatorioFinal.Venda :=
  ⟨1, "Notebook", "Maria Silva", 2, 3500, 7000, "2024-01-15", (2024, 1, 15)⟩

/-- Second sample record (`"Mouse"`, `"João Santos"`, 5 × 89.90). -/
def vendaMouseA : AnaliseVendas.Venda :=
  ⟨2, "Mouse", "João Santos", 5, 899/10, 899/2, "2024-01-16"⟩

/-- Third sample record (`"Monitor"`, `"Ana Pereira"`, 1 × 1200). -/
def vendaMonitorA : AnaliseVendas.Venda :=
  ⟨3, "Monitor", "Ana Pereira", 1, 1200, 1200, "2024-02-20"⟩

/-- A three-record demonstration ledger with three distinct sellers,
three products and two months. -/
def demoVendas : List AnaliseVendas.Venda := [vendaNotebookA, vendaMouseA, vendaMonitorA]

/-! ### Case analysis of the two insertion operations -/

namespace AnaliseVendas

/-- `registrar_venda` either rejects (returning `none` and the unchanged
state) or all validation checks pass and it appends the fully determined
record. -/
lemma registrar_casos_analise (p v : String) (q : Int) (u : ℚ) (d : String) (s : Estado) :
    registrar_venda p v q u d s = (none, s) ∨
    (EntradaValida p v q u d ∧
      registrar_venda p v q u d s =
        (some ⟨s.contador_id, strip p, strip v, q, u, (q : ℚ) * u, d⟩,
         ⟨s.vendas ++ [⟨s.contador_id, strip p, strip v, q, u, (q : ℚ) * u, d⟩],
          s.contador_id + 1⟩)) := by
  unfold registrar_venda
  by_cases h1 : p = "" ∨ v = "" ∨ d = ""
  · left; rw [if_pos h1]
  rw [if_neg h1]
  by_cases h2 : q ≤ 0
  · left; rw [if_pos h2]
  rw [if_neg h2]
  by_cases h3 : u ≤ 0
  · left; rw [if_pos h3]
  rw [if_neg h3]
  by_cases h4 : (d.toList.length = 10 ∧ d.toList[4]? = some '-' ∧ d.toList[7]? = some '-')
  · right
    refine ⟨⟨h1, lt_of_not_le h2, lt_of_not_le h3, h4⟩, ?_⟩
    rw [if_neg (not_not_intro h4)]
  · left; rw [if_pos h4]

end AnaliseVendas

namespace RelatorioFinal

/-- `SistemaVendas.registrar_venda` either rejects (returning `None` and
leaving the object unchanged) or all checks pass, the date parses, and
the rounded record is appended. -/
lemma registrar_casos_sistema (p v : String) (q : Int) (u : ℚ) (d : String) (s : Sistema) :
    registrar_venda p v q u d s = (none, s) ∨
    ∃ y m dd, strptimeYMD d = some (y, m, dd) ∧ EntradaValida p v q u d ∧
      registrar_venda p v q u d s =
        (some ⟨s.contador_id, strip p, strip v, q, u, round2 ((q : ℚ) * u),
            formataYMD y m dd, (y, m, dd)⟩,
         ⟨s.vendas ++ [⟨s.contador_id, strip p, strip v, q, u, round2 ((q : ℚ) * u),
            formataYMD y m dd, (y, m, dd)⟩], s.contador_id + 1⟩) := by
  unfold registrar_venda
  by_cases h1 : p = "" ∨ v = "" ∨ d = ""
  · left; rw [if_pos h1]
  rw [if_neg h1]
  by_cases h2 : q ≤ 0
  · left; rw [if_pos h2]
  rw [if_neg h2]
  by_cases h3 : u ≤ 0
  · left; rw [if_pos h3]
  rw [if_neg h3]
  rcases hm : strptimeYMD d with _ | ymd
  · left; rfl
  · obtain ⟨y, m, dd⟩ := ymd
    right
    exact ⟨y, m, dd, rfl, ⟨h1, lt_of_not_le h2, lt_of_not_le h3, by rw [hm]; simp⟩, rfl⟩

end RelatorioFinal

/-!
The Batteries definitions of rational arithmetic are `@[irreducible]`,
which blocks `decide` on concrete rational computations; the concrete
witnesses below evaluate the embedded functions, so restore the
definitional transparency of these operations.
-/

set_option allowUnsafeReducibility true

attribute [semireducible] Rat.mul Rat.inv Rat.add Rat.sub

/-! ### C1: the stored total -/

/-- C1 (counterexample).  The claim says every valid insertion through
`registrar_venda` stores `total = round(quantity * unit_price, 2)`.  In
the module-level variant the insertion
`registrar_venda("Notebook", "Ana", 1, 0.125, "2024-01-15")` passes all
validation checks, yet the stored total is the unrounded `0.125`, while
`round(1 * 0.125, 2) = 0.12`. -/
theorem registrar_venda_total_nao_arredonda :
    ((AnaliseVendas.registrar_venda "Notebook" "Ana" 1 (1/8) "2024-01-15"
        AnaliseVendas.estadoInicial).1.map AnaliseVendas.Venda.valor_total) = some (1/8) ∧
    AnaliseVendas.EntradaValida "Notebook" "Ana" 1 (1/8) "2024-01-15" ∧
    round2 ((1 : ℚ) * (1/8)) = 12/100 ∧ (1/8 : ℚ) ≠ 12/100 := by
  refine ⟨by decide, by decide, by decide, by decide⟩

/-- C1 (amended).  Every successful insertion through
`SistemaVendas.registrar_venda` stores and returns
`total = round(quantity * unit_price, 2)` and appends exactly that record
to the ledger; the module-level `registrar_venda` of
`AnaliseVendasEdu.py` instead stores the unrounded product
`quantity * unit_price`. -/
theorem registrar_venda_total_spec (p v : String) (q : Int) (u : ℚ) (d : String)
    (s1 : RelatorioFinal.Sistema) (s2 : AnaliseVendas.Estado) :
    (∀ ven s1', RelatorioFinal.registrar_venda p v q u d s1 = (some ven, s1') →
      ven.valor_total = round2 ((q : ℚ) * u) ∧ s1'.vendas = s1.vendas ++ [ven]) ∧
    (∀ ven s2', AnaliseVendas.registrar_venda p v q u d s2 = (some ven, s2') →
      ven.valor_total = (q : ℚ) * u ∧ s2'.vendas = s2.vendas ++ [ven]) := by
  constructor
  · intro ven s1' h
    rcases RelatorioFinal.registrar_casos_sistema p v q u d s1 with h0 | ⟨y, m, dd, -, -, h0⟩ <;>
      rw [h0] at h <;> simp only [Prod.mk.injEq, Option.some.injEq] at h
    · exact absurd h.1 (by simp)
    · obtain ⟨hv, hs⟩ := h
      subst hv; subst hs; exact ⟨rfl, rfl⟩
  · intro ven s2' h
    rcases AnaliseVendas.registrar_casos_analise p v q u d s2 with h0 | ⟨-, h0⟩ <;>
      rw [h0] at h <;> simp only [Prod.mk.injEq, Option.some.injEq] at h
    · exact absurd h.1 (by simp)
    · obtain ⟨hv, hs⟩ := h
      subst hv; subst hs; exact ⟨rfl, rfl⟩

/-- C1 (witness).  The amended theorem applied to the concrete insertion
`("Notebook", "Maria Silva", 2, 3500.00, "2024-01-15")` in both
variants. -/
theorem registrar_venda_total_spec_witness :
    vendaNotebookS.valor_total = round2 ((2 : ℚ) * 3500) ∧
    vendaNotebookA.valor_total = (2 : ℚ) * 3500 :=
  ⟨((registrar_venda_total_spec "Notebook" "Maria Silva" 2 3500 "2024-01-15"
      RelatorioFinal.sistemaInicial AnaliseVendas.estadoInicial).1
      vendaNotebookS ⟨[vendaNotebookS], 2⟩ (by decide)).1,
   ((registrar_venda_total_spec "Notebook" "Maria Silva" 2 3500 "2024-01-15"
      RelatorioFinal.sistemaInicial AnaliseVendas.estadoInicial).2
      vendaNotebookA ⟨[vendaNotebookA], 2⟩ (by decide)).1⟩

/-! ### C2: invalid calendar dates -/

/-- C2 (counterexample).  The claim says `registrar_venda` rejects every
date string that is not a valid calendar date, including `"2024-13-01"`.
The module-level variant only checks the 10-character dash shape, so
`registrar_venda("Notebook", "Ana", 1, 10, "2024-13-01")` is accepted
and inserted, even though month 13 is not a valid calendar date
(`strptime` rejects it). -/
theorem registrar_venda_aceita_mes_13 :
    (AnaliseVendas.registrar_venda "Notebook" "Ana" 1 10 "2024-13-01"
        AnaliseVendas.estadoInicial).1 ≠ none ∧
    (AnaliseVendas.registrar_venda "Notebook" "Ana" 1 10 "2024-13-01"
        AnaliseVendas.estadoInicial).2.vendas.length = 1 ∧
    RelatorioFinal.strptimeYMD "2024-13-01" = none := by
  refine ⟨by decide, by decide, by decide⟩

/-- C2 (amended).  Only `SistemaVendas.registrar_venda` rejects every
date string that does not parse as a valid `YYYY-MM-DD` calendar date:
it returns `None` and leaves the object unchanged.  (The module-level
variant accepts any 10-character string with dashes at indices 4 and 7,
as the counterexample shows.) -/
theorem registrar_venda_rejeita_data_invalida (p v : String) (q : Int) (u : ℚ)
    (d : String) (s : RelatorioFinal.Sistema)
    (h : RelatorioFinal.strptimeYMD d = none) :
    RelatorioFinal.registrar_venda p v q u d s = (none, s) := by
  rcases RelatorioFinal.registrar_casos_sistema p v q u d s with h0 | ⟨y, m, dd, hm, -, -⟩
  · exact h0
  · rw [h] at hm; exact absurd hm (by simp)

/-- C2 (witness).  The amended theorem applied to the scenario input
`"2024-13-01"`. -/
theorem registrar_venda_rejeita_data_invalida_witness :
    RelatorioFinal.registrar_venda "Notebook" "Ana" 1 10 "2024-13-01"
      RelatorioFinal.sistemaInicial = (none, RelatorioFinal.sistemaInicial) :=
  registrar_venda_rejeita_data_invalida "Notebook" "Ana" 1 10 "2024-13-01"
    RelatorioFinal.sistemaInicial (by decide)

/-! ### C3: text-field validation and trimming -/

/-- C3 (counterexample).  The claim says a whitespace-only product or
seller is rejected and never inserted.  In both variants the insertion
`registrar_venda(" ", "Ana Pereira", 1, 10, "2024-01-15")` passes the
truthiness check (a whitespace-only string is non-empty) and is
inserted, with the stored product trimmed to the empty string. -/
theorem registrar_venda_aceita_produto_em_branco :
    ((AnaliseVendas.registrar_venda " " "Ana Pereira" 1 10 "2024-01-15"
        AnaliseVendas.estadoInicial).1.map AnaliseVendas.Venda.produto) = some "" ∧
    ((RelatorioFinal.registrar_venda " " "Ana Pereira" 1 10 "2024-01-15"
        RelatorioFinal.sistemaInicial).1.map RelatorioFinal.Venda.produto) = some "" := by
  refine ⟨by decide, by decide⟩

/-- C3 (amended).  In both variants the text validation rejects
`produto`, `vendedor` or `data` only when the raw string is empty
(before trimming), returning `None` with the state unchanged; a
whitespace-only text passes validation.  On success the stored `produto`
and `vendedor` are the whitespace-trimmed texts (possibly empty). -/
theorem registrar_venda_campos_texto (p v : String) (q : Int) (u : ℚ) (d : String)
    (s1 : RelatorioFinal.Sistema) (s2 : AnaliseVendas.Estado) :
    (p = "" ∨ v = "" ∨ d = "" →
      AnaliseVendas.registrar_venda p v q u d s2 = (none, s2) ∧
      RelatorioFinal.registrar_venda p v q u d s1 = (none, s1)) ∧
    (∀ ven s2', AnaliseVendas.registrar_venda p v q u d s2 = (some ven, s2') →
      ven.produto = strip p ∧ ven.vendedor = strip v) ∧
    (∀ ven s1', RelatorioFinal.registrar_venda p v q u d s1 = (some ven, s1') →
      ven.produto = strip p ∧ ven.vendedor = strip v) := by
  refine ⟨fun h => ?_, fun ven s2' h => ?_, fun ven s1' h => ?_⟩
  · constructor
    · unfold AnaliseVendas.registrar_venda; rw [if_pos h]
    · unfold RelatorioFinal.registrar_venda; rw [if_pos h]
  · rcases AnaliseVendas.registrar_casos_analise p v q u d s2 with h0 | ⟨-, h0⟩ <;>
      rw [h0] at h <;> simp only [Prod.mk.injEq, Option.some.injEq] at h
    · exact absurd h.1 (by simp)
    · obtain ⟨hv, -⟩ := h; subst hv; exact ⟨rfl, rfl⟩
  · rcases RelatorioFinal.registrar_casos_sistema p v q u d s1 with h0 | ⟨y, m, dd, -, -, h0⟩ <;>
      rw [h0] at h <;> simp only [Prod.mk.injEq, Option.some.injEq] at h
    · exact absurd h.1 (by simp)
    · obtain ⟨hv, -⟩ := h; subst hv; exact ⟨rfl, rfl⟩

/-- C3 (witness).  The amended theorem applied to an empty product (both
variants reject) and to the padded texts `" Notebook "`, `" Maria "`
(insertion succeeds and stores the trimmed texts). -/
theorem registrar_venda_campos_texto_witness :
    (AnaliseVendas.registrar_venda "" "Ana" 1 10 "2024-01-15"
        AnaliseVendas.estadoInicial = (none, AnaliseVendas.estadoInicial)) ∧
    strip " Notebook " = "Notebook" ∧
    vendaNotebookA.produto = strip " Notebook " ∧
    vendaNotebookA.vendedor = strip " Maria Silva " :=
  have h := registrar_venda_campos_texto "" "Ana" 1 10 "2024-01-15"
    RelatorioFinal.sistemaInicial AnaliseVendas.estadoInicial
  have h2 := registrar_venda_campos_texto " Notebook " " Maria Silva " 2 3500 "2024-01-15"
    RelatorioFinal.sistemaInicial AnaliseVendas.estadoInicial
  ⟨(h.1 (Or.inl rfl)).1, by decide,
    (h2.2.1 vendaNotebookA ⟨[vendaNotebookA], 2⟩ (by decide)).1,
    (h2.2.1 vendaNotebookA ⟨[vendaNotebookA], 2⟩ (by decide)).2⟩

/-! ### C6: rejected insertions leave the state unchanged -/

/-- C6.  In both variants, any input that fails a validation check makes
`registrar_venda` return `None` with the ledger state (transaction list
and id counter) completely unchanged. -/
theorem registrar_venda_falha_sem_efeito (p v : String) (q : Int) (u : ℚ) (d : String)
    (s1 : RelatorioFinal.Sistema) (s2 : AnaliseVendas.Estado) :
    (¬ AnaliseVendas.EntradaValida p v q u d →
      AnaliseVendas.registrar_venda p v q u d s2 = (none, s2)) ∧
    (¬ RelatorioFinal.EntradaValida p v q u d →
      RelatorioFinal.registrar_venda p v q u d s1 = (none, s1)) := by
  constructor
  · intro hinv
    rcases AnaliseVendas.registrar_casos_analise p v q u d s2 with h0 | ⟨hval, -⟩
    · exact h0
    · exact absurd hval hinv
  · intro hinv
    rcases RelatorioFinal.registrar_casos_sistema p v q u d s1 with h0 | ⟨y, m, dd, -, hval, -⟩
    · exact h0
    · exact absurd hval hinv

/-- C6 (witness).  The theorem applied to the spec scenario of an
insertion with quantity `0`: rejected in both variants, ledger size
unchanged, no id consumed. -/
theorem registrar_venda_falha_sem_efeito_witness :
    AnaliseVendas.registrar_venda "Notebook" "Ana" 0 10 "2024-01-15"
      AnaliseVendas.estadoInicial = (none, AnaliseVendas.estadoInicial) ∧
    RelatorioFinal.registrar_venda "Notebook" "Ana" 0 10 "2024-01-15"
      RelatorioFinal.sistemaInicial = (none, RelatorioFinal.sistemaInicial) :=
  have h := registrar_venda_falha_sem_efeito "Notebook" "Ana" 0 10 "2024-01-15"
    RelatorioFinal.sistemaInicial AnaliseVendas.estadoInicial
  ⟨h.1 (by decide), h.2 (by decide)⟩

/-! ### C5: sequential ids -/

/-- `List.range' s (n+1)` with unit step ends in `s + n`. -/
lemma range_succ_concat (s n : Nat) :
    List.range' s (n + 1) = List.range' s n ++ [s + n] := by
  induction n generalizing s with
  | zero => simp [List.range']
  | succ n ih =>
    have h1 : List.range' s (n + 1 + 1) = s :: List.range' (s + 1) (n + 1) := rfl
    have h2 : List.range' s (n + 1) = s :: List.range' (s + 1) n := rfl
    rw [h1, ih (s + 1), h2]
    simp [List.cons_append, Nat.add_assoc, Nat.add_comm 1 n]

/-- The id invariant is preserved by one module-level insertion. -/
lemma AnaliseVendas.passo_ids_analise (s : Estado) (e : Entrada)
    (h1 : s.vendas.map (·.id) = List.range' 1 s.vendas.length)
    (h2 : s.contador_id = s.vendas.length + 1) :
    (passo s e).vendas.map (·.id) = List.range' 1 (passo s e).vendas.length ∧
    (passo s e).contador_id = (passo s e).vendas.length + 1 := by
  unfold passo
  rcases registrar_casos_analise e.produto e.vendedor e.quantidade e.valor_unitario e.data s with
    h0 | ⟨-, h0⟩ <;> rw [h0]
  · exact ⟨h1, h2⟩
  · refine ⟨?_, by simp [h2]⟩
    simp only [List.map_append, List.length_append, List.map_cons, List.map_nil,
      List.length_cons, List.length_nil]
    rw [h1, h2, range_succ_concat]
    simp [Nat.add_comm]

/-- The id invariant is preserved by one `SistemaVendas` insertion. -/
lemma RelatorioFinal.passo_ids_sistema (s : Sistema) (e : Entrada)
    (h1 : s.vendas.map (·.id) = List.range' 1 s.vendas.length)
    (h2 : s.contador_id = s.vendas.length + 1) :
    (passo s e).vendas.map (·.id) = List.range' 1 (passo s e).vendas.length ∧
    (passo s e).contador_id = (passo s e).vendas.length + 1 := by
  unfold passo
  rcases registrar_casos_sistema e.produto e.vendedor e.quantidade e.valor_unitario e.data s with
    h0 | ⟨y, m, dd, -, -, h0⟩ <;> rw [h0]
  · exact ⟨h1, h2⟩
  · refine ⟨?_, by simp [h2]⟩
    simp only [List.map_append, List.length_append, List.map_cons, List.map_nil,
      List.length_cons, List.length_nil]
    rw [h1, h2, range_succ_concat]
    simp [Nat.add_comm]

/-- Folding insertions preserves the id invariant (module variant). -/
lemma AnaliseVendas.foldl_ids_analise (es : List Entrada) :
    ∀ s : Estado, s.vendas.map (·.id) = List.range' 1 s.vendas.length →
      s.contador_id = s.vendas.length + 1 →
      ((es.foldl passo s).vendas.map (·.id) =
        List.range' 1 (es.foldl passo s).vendas.length ∧
      (es.foldl passo s).contador_id = (es.foldl passo s).vendas.length + 1) := by
  induction es with
  | nil => exact fun s h1 h2 => ⟨h1, h2⟩
  | cons e rest ih =>
    intro s h1 h2
    rw [List.foldl_cons]
    obtain ⟨g1, g2⟩ := passo_ids_analise s e h1 h2
    exact ih _ g1 g2

/-- Folding insertions preserves the id invariant (class variant). -/
lemma RelatorioFinal.foldl_ids_sistema (es : List Entrada) :
    ∀ s : Sistema, s.vendas.map (·.id) = List.range' 1 s.vendas.length →
      s.contador_id = s.vendas.length + 1 →
      ((es.foldl passo s).vendas.map (·.id) =
        List.range' 1 (es.foldl passo s).vendas.length ∧
      (es.foldl passo s).contador_id = (es.foldl passo s).vendas.length + 1) := by
  induction es with
  | nil => exact fun s h1 h2 => ⟨h1, h2⟩
  | cons e rest ih =>
    intro s h1 h2
    rw [List.foldl_cons]
    obtain ⟨g1, g2⟩ := passo_ids_sistema s e h1 h2
    exact ih _ g1 g2

/-- C5.  After any sequence of `registrar_venda` calls (accepted or
rejected, in either variant) on a fresh ledger, the ids of the stored
transactions in ledger order are exactly `1, 2, ..., n` (so they are
unique, gap-free and equal to the insertion sequence number), and the
next-id counter sits one past the ledger size. -/
theorem ids_sequenciais (es : List Entrada) :
    ((AnaliseVendas.executa es).vendas.map (·.id) =
        List.range' 1 (AnaliseVendas.executa es).vendas.length ∧
      (AnaliseVendas.executa es).contador_id =
        (AnaliseVendas.executa es).vendas.length + 1) ∧
    ((RelatorioFinal.executa es).vendas.map (·.id) =
        List.range' 1 (RelatorioFinal.executa es).vendas.length ∧
      (RelatorioFinal.executa es).contador_id =
        (RelatorioFinal.executa es).vendas.length + 1) :=
  ⟨AnaliseVendas.foldl_ids_analise es AnaliseVendas.estadoInicial rfl rfl,
   RelatorioFinal.foldl_ids_sistema es RelatorioFinal.sistemaInicial rfl rfl⟩

/-! ### C4: conservation of total revenue across groupings -/

namespace AnaliseVendas

/-- One `atualizaVendedor` step adds exactly the inserted value to the
sum of the per-seller revenue totals. -/
lemma atualizaVendedor_sum (k : String) (x : ℚ) (l : List (String × ℚ × Nat)) :
    ((atualizaVendedor k x l).map (fun p => p.2.1)).sum =
      (l.map (fun p => p.2.1)).sum + x := by
  induction l with
  | nil => simp [atualizaVendedor]
  | cons hd rest ih =>
    obtain ⟨k', t, c⟩ := hd
    by_cases h : k' = k
    · simp [atualizaVendedor, h]; ring
    · simp [atualizaVendedor, h, ih]; ring

/-- Folding the per-seller accumulation adds the sum of the ledger's
totals to the accumulator's sum. -/
lemma foldl_vendedor_sum (l : List Venda) :
    ∀ acc : List (String × ℚ × Nat),
      (((l.foldl (fun a v => atualizaVendedor v.vendedor v.valor_total a) acc).map
          (fun p => p.2.1)).sum) =
        (acc.map (fun p => p.2.1)).sum + (l.map (·.valor_total)).sum := by
  induction l with
  | nil => simp
  | cons v rest ih =>
    intro acc
    rw [List.foldl_cons, ih, atualizaVendedor_sum]
    simp [add_assoc]

/-- The per-seller totals sum to the sum of all stored totals. -/
lemma por_vendedor_sum (vendas : List Venda) :
    ((calcular_vendas_por_vendedor vendas).map (fun p => p.2.total_vendas)).sum =
      (vendas.map (·.valor_total)).sum := by
  unfold calcular_vendas_por_vendedor
  rw [List.map_map]
  have hcomp :
      ((fun p : String × StatsVendedor => p.2.total_vendas) ∘
        (fun p : String × ℚ × Nat =>
          (p.1, (⟨p.2.1, p.2.2, if p.2.2 > 0 then p.2.1 / (p.2.2 : ℚ) else 0⟩ : StatsVendedor)))) =
        fun p : String × ℚ × Nat => p.2.1 := by
    funext p; rfl
  rw [hcomp, foldl_vendedor_sum]
  simp

/-- One `atualizaProduto` step adds exactly the inserted value to the
sum of the per-product revenues. -/
lemma atualizaProduto_sum (k : String) (x : ℚ) (n : Int) (l : List (String × ℚ × Int)) :
    ((atualizaProduto k x n l).map (fun p => p.2.1)).sum =
      (l.map (fun p => p.2.1)).sum + x := by
  induction l with
  | nil => simp [atualizaProduto]
  | cons hd rest ih =>
    obtain ⟨k', t, c⟩ := hd
    by_cases h : k' = k
    · simp [atualizaProduto, h]; ring
    · simp [atualizaProduto, h, ih]; ring

/-- Folding the per-product accumulation adds the sum of the ledger's
totals to the accumulator's sum. -/
lemma foldl_produto_sum (l : List Venda) :
    ∀ acc : List (String × ℚ × Int),
      (((l.foldl (fun a v => atualizaProduto v.produto v.valor_total v.quantidade a) acc).map
          (fun p => p.2.1)).sum) =
        (acc.map (fun p => p.2.1)).sum + (l.map (·.valor_total)).sum := by
  induction l with
  | nil => simp
  | cons v rest ih =>
    intro acc
    rw [List.foldl_cons, ih, atualizaProduto_sum]
    simp [add_assoc]

/-- The per-product `receita` fields sum to the sum of all stored totals. -/
lemma por_produto_sum (vendas : List Venda) :
    ((calcular_vendas_por_produto vendas).map (fun p => p.2.receita)).sum =
      (vendas.map (·.valor_total)).sum := by
  unfold calcular_vendas_por_produto
  rw [List.map_map]
  have hcomp :
      ((fun p : String × StatsProduto => p.2.receita) ∘
        (fun p : String × ℚ × Int => (p.1, (⟨p.2.1, p.2.2, p.2.1⟩ : StatsProduto)))) =
        fun p : String × ℚ × Int => p.2.1 := by
    funext p; rfl
  rw [hcomp, foldl_produto_sum]
  simp

end AnaliseVendas

/-- C4.  For every non-empty ledger (in particular every non-empty ledger
reachable by `registrar_venda` calls from a fresh state), the sum of the
per-seller totals of `calcular_vendas_por_vendedor` and the sum of the
per-product revenues of `calcular_vendas_por_produto` both equal
`calcular_total_vendas()`: total revenue is conserved across groupings. -/
theorem conservacao_receita (vendas : List AnaliseVendas.Venda) (h : vendas ≠ []) :
    ((AnaliseVendas.calcular_vendas_por_vendedor vendas).map
        (fun p => p.2.total_vendas)).sum = AnaliseVendas.calcular_total_vendas vendas ∧
    ((AnaliseVendas.calcular_vendas_por_produto vendas).map
        (fun p => p.2.receita)).sum = AnaliseVendas.calcular_total_vendas vendas := by
  unfold AnaliseVendas.calcular_total_vendas
  rw [if_neg h]
  exact ⟨AnaliseVendas.por_vendedor_sum vendas, AnaliseVendas.por_produto_sum vendas⟩

/-- C4 (witness).  The conservation theorem applied to the three-record
demonstration ledger. -/
theorem conservacao_receita_witness :
    ((AnaliseVendas.calcular_vendas_por_vendedor demoVendas).map
        (fun p => p.2.total_vendas)).sum =
      AnaliseVendas.calcular_total_vendas demoVendas ∧
    ((AnaliseVendas.calcular_vendas_por_produto demoVendas).map
        (fun p => p.2.receita)).sum =
      AnaliseVendas.calcular_total_vendas demoVendas :=
  conservacao_receita demoVendas (by decide)

/-! ### C8: prefix stability of the seller ranking -/

/-- C8.  When the ledger has more than `limite` distinct sellers (the
per-seller mapping has more than `limite` keys), the ranking truncated
at `limite` equals the first `limite` entries of the ranking truncated
at `limite + 10`: the sorted order does not depend on the requested
limit. -/
theorem ranking_vendedores_prefixo (limite : Nat) (vendas : List AnaliseVendas.Venda)
    (_h : limite < (AnaliseVendas.calcular_vendas_por_vendedor vendas).length) :
    AnaliseVendas.ranking_vendedores limite vendas =
      (AnaliseVendas.ranking_vendedores (limite + 10) vendas).take limite := by
  unfold AnaliseVendas.ranking_vendedores
  rw [List.map_take, List.map_take, List.take_take]
  have hmin : min limite (limite + 10) = limite := by omega
  rw [hmin]

/-- C8 (witness).  The prefix-stability theorem applied to the
demonstration ledger (three distinct sellers) with `limite = 1`. -/
theorem ranking_vendedores_prefixo_witness :
    1 < (AnaliseVendas.calcular_vendas_por_vendedor demoVendas).length ∧
    AnaliseVendas.ranking_vendedores 1 demoVendas =
      (AnaliseVendas.ranking_vendedores 11 demoVendas).take 1 :=
  ⟨by decide, ranking_vendedores_prefixo 1 demoVendas (by decide)⟩

/-! ### C9 and C10: the per-seller report -/

/-- The empty needle is contained in every character list. -/
lemma contidoEm_nil (h : List Char) : contidoEm [] h = true := by
  cases h <;> rfl

/-- The empty query matches every seller (Python `"" in s` is `True`). -/
lemma isSubCI_vazio (s : String) : isSubCI "" s = true :=
  contidoEm_nil _

/-- C9.  `gerar_relatorio_vendedor` selects exactly the transactions
whose stored seller contains the query as a case-insensitive substring:
it returns `None` precisely when no stored seller matches, and on
success the reported transaction list is the filtered ledger (every
selected record matches) and the canonical name is the seller field of
the first matching record, with its original casing. -/
theorem gerar_relatorio_vendedor_spec (nome : String) (vendas : List AnaliseVendas.Venda) :
    (AnaliseVendas.gerar_relatorio_vendedor nome vendas = none ↔
      ∀ v ∈ vendas, isSubCI nome v.vendedor = false) ∧
    ∀ r, AnaliseVendas.gerar_relatorio_vendedor nome vendas = some r →
      r.lista_vendas = vendas.filter (fun v => isSubCI nome v.vendedor) ∧
      (∀ v ∈ r.lista_vendas, isSubCI nome v.vendedor = true) ∧
      ∃ m ms, vendas.filter (fun v => isSubCI nome v.vendedor) = m :: ms ∧
        r.nome = m.vendedor := by
  unfold AnaliseVendas.gerar_relatorio_vendedor
  cases hf : vendas.filter (fun v => isSubCI nome v.vendedor) with
  | nil =>
    constructor
    · simp only [true_iff]
      intro v hv
      by_contra hb
      have hmem : v ∈ vendas.filter (fun v => isSubCI nome v.vendedor) :=
        List.mem_filter.mpr ⟨hv, by simpa using hb⟩
      rw [hf] at hmem
      exact absurd hmem (by simp)
    · intro r hr
      exact absurd hr (by simp)
  | cons m ms =>
    constructor
    · constructor
      · intro hr; exact absurd hr (by simp)
      · intro hall
        have hmem : m ∈ vendas.filter (fun v => isSubCI nome v.vendedor) := by
          rw [hf]; exact List.mem_cons_self m ms
        have h1 := (List.mem_filter.mp hmem).1
        have h2 := (List.mem_filter.mp hmem).2
        rw [hall m h1] at h2
        exact absurd h2 (by simp)
    · intro r hr
      simp only [Option.some.injEq] at hr
      subst hr
      refine ⟨rfl, ?_, m, ms, rfl, rfl⟩
      intro v hv
      have hmem : v ∈ vendas.filter (fun v => isSubCI nome v.vendedor) := by
        rw [hf]; exact hv
      simpa using (List.mem_filter.mp hmem).2

/-- The report produced by `gerar_relatorio_vendedor("ana")` on the
demonstration ledger: only `"Ana Pereira"` matches. -/
def relAna : AnaliseVendas.RelatorioVendedor :=
  ⟨"Ana Pereira", 1200, 1, 1200, [("Monitor", 1)], [vendaMonitorA]⟩

/-- C9 (witness).  The specification theorem applied to the scenario
query `"ana"` against the demonstration ledger, whose third record has
the stored seller `"Ana Pereira"`: the report is found and its canonical
name is `"Ana Pereira"` with the original casing. -/
theorem gerar_relatorio_vendedor_spec_witness :
    AnaliseVendas.gerar_relatorio_vendedor "ana" demoVendas = some relAna ∧
    relAna.nome = "Ana Pereira" ∧
    relAna.lista_vendas = demoVendas.filter (fun v => isSubCI "ana" v.vendedor) ∧
    isSubCI "ana" "Ana Pereira" = true :=
  have h : AnaliseVendas.gerar_relatorio_vendedor "ana" demoVendas = some relAna := by
    decide
  have hs := (gerar_relatorio_vendedor_spec "ana" demoVendas).2 relAna h
  ⟨h, by decide, hs.1, by decide⟩

/-- C10.  On every non-empty ledger, the empty query never yields the
not-found outcome: the report exists, covers every transaction, its
total equals `calcular_total_vendas()`, its transaction count is the
ledger size, and its canonical name is the seller of the first
transaction ever inserted. -/
theorem relatorio_consulta_vazia (v : AnaliseVendas.Venda) (vs : List AnaliseVendas.Venda) :
    ∃ r, AnaliseVendas.gerar_relatorio_vendedor "" (v :: vs) = some r ∧
      r.nome = v.vendedor ∧
      r.quantidade_transacoes = (v :: vs).length ∧
      r.total_vendas = AnaliseVendas.calcular_total_vendas (v :: vs) ∧
      r.lista_vendas = v :: vs := by
  have hf : (v :: vs).filter (fun w => isSubCI "" w.vendedor) = v :: vs :=
    List.filter_eq_self.mpr (fun a _ => isSubCI_vazio a.vendedor)
  unfold AnaliseVendas.gerar_relatorio_vendedor
  rw [hf]
  refine ⟨_, rfl, rfl, rfl, ?_, rfl⟩
  show ((v :: vs).map (·.valor_total)).sum = AnaliseVendas.calcular_total_vendas (v :: vs)
  unfold AnaliseVendas.calcular_total_vendas
  rw [if_neg (List.cons_ne_nil v vs)]

/-- C10 (witness).  The empty-query theorem applied to the demonstration
ledger: the report is found, is named after the first record's seller,
and totals the whole ledger. -/
theorem relatorio_consulta_vazia_witness :
    (AnaliseVendas.gerar_relatorio_vendedor "" demoVendas).map
        AnaliseVendas.RelatorioVendedor.nome = some "Maria Silva" ∧
    (AnaliseVendas.gerar_relatorio_vendedor "" demoVendas).map
        AnaliseVendas.RelatorioVendedor.total_vendas =
      some (AnaliseVendas.calcular_total_vendas demoVendas) ∧
    (AnaliseVendas.gerar_relatorio_vendedor "" demoVendas).map
        AnaliseVendas.RelatorioVendedor.quantidade_transacoes = some demoVendas.length := by
  obtain ⟨r, hr, h1, h2, h3, h4⟩ :=
    relatorio_consulta_vazia vendaNotebookA [vendaMouseA, vendaMonitorA]
  have hd : demoVendas = vendaNotebookA :: [vendaMouseA, vendaMonitorA] := rfl
  rw [hd]
  rw [hr]
  refine ⟨?_, ?_, ?_⟩
  · rw [Option.map_some', h1]; rfl
  · rw [Option.map_some', h3]
  · rw [Option.map_some', h2]

/-! ### C7: the best month -/

/-- `lexLe` is reflexive. -/
lemma lexLe_refl : ∀ cs : List Char, lexLe cs cs = true
  | [] => rfl
  | c :: cs => by
    simp only [lexLe, Nat.lt_irrefl, if_false]
    exact lexLe_refl cs

/-- `lexLe` is total. -/
lemma lexLe_total : ∀ a b : List Char, lexLe a b = true ∨ lexLe b a = true
  | [], _ => Or.inl rfl
  | _ :: _, [] => Or.inr rfl
  | a :: as, b :: bs => by
    rcases Nat.lt_trichotomy a.toNat b.toNat with h | h | h
    · left; simp [lexLe, h]
    · rcases lexLe_total as bs with ih | ih
      · left; simp [lexLe, h, Nat.lt_irrefl, ih]
      · right; simp [lexLe, h, Nat.lt_irrefl, ih]
    · right; simp [lexLe, h]

/-- `lexLe` is transitive. -/
lemma lexLe_trans : ∀ a b c : List Char,
    lexLe a b = true → lexLe b c = true → lexLe a c = true
  | [], _, _, _, _ => rfl
  | _ :: _, [], _, hab, _ => by simp [lexLe] at hab
  | _ :: _, _ :: _, [], _, hbc => by simp [lexLe] at hbc
  | x :: xs, y :: ys, z :: zs, hab, hbc => by
    simp only [lexLe] at hab hbc ⊢
    split_ifs at hab hbc ⊢ <;>
      first
        | rfl
        | omega
        | (exact lexLe_trans xs ys zs hab hbc)

/-- `strLe` is transitive. -/
lemma strLe_trans {a b c : String} (h1 : strLe a b = true) (h2 : strLe b c = true) :
    strLe a c = true :=
  lexLe_trans a.toList b.toList c.toList h1 h2

/-- Totality of `strLe`, in the form used by the insertion sort. -/
lemma strLe_of_not {a b : String} (h : ¬ strLe a b = true) : strLe b a = true :=
  (lexLe_total a.toList b.toList).resolve_left h

/-- Members of `insereOrdenado p l` are `p` or members of `l`. -/
lemma insereOrdenado_mem (p : String × ℚ) (l : List (String × ℚ)) (x : String × ℚ)
    (hx : x ∈ AnaliseVendas.insereOrdenado p l) : x = p ∨ x ∈ l := by
  induction l with
  | nil => simpa [AnaliseVendas.insereOrdenado] using hx
  | cons q rest ih =>
    simp only [AnaliseVendas.insereOrdenado] at hx
    split_ifs at hx with h
    · rcases List.mem_cons.mp hx with h1 | h1
      · exact Or.inl h1
      · exact Or.inr h1
    · rcases List.mem_cons.mp hx with h1 | h1
      · exact Or.inr (by rw [h1]; exact List.mem_cons_self q rest)
      · rcases ih h1 with h2 | h2
        · exact Or.inl h2
        · exact Or.inr (List.mem_cons_of_mem q h2)

/-- Ordered insertion preserves key-sortedness. -/
lemma insereOrdenado_pairwise (p : String × ℚ) (l : List (String × ℚ))
    (hl : l.Pairwise (fun a b => strLe a.1 b.1 = true)) :
    (AnaliseVendas.insereOrdenado p l).Pairwise (fun a b => strLe a.1 b.1 = true) := by
  induction l with
  | nil => simp [AnaliseVendas.insereOrdenado]
  | cons q rest ih =>
    rw [List.pairwise_cons] at hl
    obtain ⟨hq, hrest⟩ := hl
    simp only [AnaliseVendas.insereOrdenado]
    split_ifs with h
    · rw [List.pairwise_cons]
      refine ⟨?_, List.pairwise_cons.mpr ⟨hq, hrest⟩⟩
      intro y hy
      rcases List.mem_cons.mp hy with h1 | h1
      · rw [h1]; exact h
      · exact strLe_trans h (hq y h1)
    · rw [List.pairwise_cons]
      refine ⟨?_, ih hrest⟩
      intro y hy
      rcases insereOrdenado_mem p rest y hy with h1 | h1
      · rw [h1]; exact strLe_of_not h
      · exact hq y h1

/-- The output of `ordenaPorChave` is sorted by key. -/
lemma ordenaPorChave_pairwise (l : List (String × ℚ)) :
    (AnaliseVendas.ordenaPorChave l).Pairwise (fun a b => strLe a.1 b.1 = true) := by
  induction l with
  | nil => simp [AnaliseVendas.ordenaPorChave]
  | cons p rest ih => exact insereOrdenado_pairwise p _ ih

/-- `atualizaMes` never returns the empty list. -/
lemma atualizaMes_ne_nil (k : String) (x : ℚ) (l : List (String × ℚ)) :
    AnaliseVendas.atualizaMes k x l ≠ [] := by
  cases l with
  | nil => simp [AnaliseVendas.atualizaMes]
  | cons q rest =>
    obtain ⟨k', t⟩ := q
    simp only [AnaliseVendas.atualizaMes]
    split_ifs <;> simp

/-- Folding month updates preserves non-emptiness of the accumulator. -/
lemma foldl_mes_ne_nil (l : List AnaliseVendas.Venda) :
    ∀ acc : List (String × ℚ), acc ≠ [] →
      l.foldl (fun a v => AnaliseVendas.atualizaMes (AnaliseVendas.extrair_mes v.data)
        v.valor_total a) acc ≠ [] := by
  induction l with
  | nil => exact fun acc h => h
  | cons v rest ih =>
    intro acc h
    rw [List.foldl_cons]
    exact ih _ (atualizaMes_ne_nil _ _ _)

/-- Ordered insertion never returns the empty list. -/
lemma insereOrdenado_ne_nil (p : String × ℚ) (l : List (String × ℚ)) :
    AnaliseVendas.insereOrdenado p l ≠ [] := by
  cases l with
  | nil => simp [AnaliseVendas.insereOrdenado]
  | cons q rest =>
    simp only [AnaliseVendas.insereOrdenado]
    split_ifs <;> simp

/-- A non-empty ledger yields a non-empty month mapping. -/
lemma por_mes_ne_nil (vendas : List AnaliseVendas.Venda) (h : vendas ≠ []) :
    AnaliseVendas.calcular_vendas_por_mes vendas ≠ [] := by
  unfold AnaliseVendas.calcular_vendas_por_mes
  cases vendas with
  | nil => exact absurd rfl h
  | cons v vs =>
    rw [List.foldl_cons]
    have hacc := foldl_mes_ne_nil vs _ (atualizaMes_ne_nil
      (AnaliseVendas.extrair_mes v.data) v.valor_total [])
    cases hl : vs.foldl (fun a w => AnaliseVendas.atualizaMes (AnaliseVendas.extrair_mes w.data)
        w.valor_total a) (AnaliseVendas.atualizaMes (AnaliseVendas.extrair_mes v.data)
        v.valor_total []) with
    | nil => exact absurd hl hacc
    | cons p rest =>
      simp only [AnaliseVendas.ordenaPorChave]
      exact insereOrdenado_ne_nil p _

/-- The scan result of `maxPorValor` is an element of the scanned list. -/
lemma maxPorValor_mem : ∀ (l : List (String × ℚ)) (b : String × ℚ),
    AnaliseVendas.maxPorValor b l ∈ b :: l
  | [], b => List.mem_cons_self b []
  | x :: rest, b => by
    by_cases hbx : b.2 < x.2
    · simp only [AnaliseVendas.maxPorValor, if_pos hbx]
      rcases List.mem_cons.mp (maxPorValor_mem rest x) with h | h
      · exact List.mem_cons.mpr (Or.inr (List.mem_cons.mpr (Or.inl h)))
      · exact List.mem_cons.mpr (Or.inr (List.mem_cons.mpr (Or.inr h)))
    · simp only [AnaliseVendas.maxPorValor, if_neg hbx]
      rcases List.mem_cons.mp (maxPorValor_mem rest b) with h | h
      · exact List.mem_cons.mpr (Or.inl h)
      · exact List.mem_cons.mpr (Or.inr (List.mem_cons.mpr (Or.inr h)))

/-- The scan result of `maxPorValor` dominates every scanned value. -/
lemma maxPorValor_ge : ∀ (l : List (String × ℚ)) (b p : String × ℚ),
    p ∈ b :: l → p.2 ≤ (AnaliseVendas.maxPorValor b l).2
  | [], b, p, hp => by
    rcases List.mem_cons.mp hp with h | h
    · rw [h]; exact le_refl b.2
    · exact absurd h (by simp)
  | x :: rest, b, p, hp => by
    by_cases hbx : b.2 < x.2
    · simp only [AnaliseVendas.maxPorValor, if_pos hbx]
      rcases List.mem_cons.mp hp with h | h
    /- `p = b` wins through `b < x ≤ max`; the rest is the inner scan. -/
      · rw [h]
        exact le_trans (le_of_lt hbx) (maxPorValor_ge rest x x (List.mem_cons_self x rest))
      · exact maxPorValor_ge rest x p h
    · simp only [AnaliseVendas.maxPorValor, if_neg hbx]
      rcases List.mem_cons.mp hp with h | h
      · rw [h]
        exact maxPorValor_ge rest b b (List.mem_cons_self b rest)
      · rcases List.mem_cons.mp h with h1 | h1
        · rw [h1]
          exact le_trans (le_of_not_lt hbx)
            (maxPorValor_ge rest b b (List.mem_cons_self b rest))
        · exact maxPorValor_ge rest b p (List.mem_cons_of_mem b h1)

/-- `maxPorValor` keeps the seed unless a strictly larger value appears. -/
lemma maxPorValor_eq_or_lt : ∀ (l : List (String × ℚ)) (b : String × ℚ),
    AnaliseVendas.maxPorValor b l = b ∨ b.2 < (AnaliseVendas.maxPorValor b l).2
  | [], _ => Or.inl rfl
  | x :: rest, b => by
    by_cases hbx : b.2 < x.2
    · right
      simp only [AnaliseVendas.maxPorValor, if_pos hbx]
      rcases maxPorValor_eq_or_lt rest x with h | h
      · rw [h]; exact hbx
      · exact lt_trans hbx h
    · simp only [AnaliseVendas.maxPorValor, if_neg hbx]
      exact maxPorValor_eq_or_lt rest b

/-- On a key-sorted list, the first-maximum scan of `maxPorValor` returns
an entry whose key is `≤` the key of every entry tied for the maximum
value: the earliest tied key wins. -/
lemma maxPorValor_primeiro : ∀ (l : List (String × ℚ)) (b : String × ℚ),
    (b :: l).Pairwise (fun a c => strLe a.1 c.1 = true) →
    ∀ p ∈ b :: l, p.2 = (AnaliseVendas.maxPorValor b l).2 →
      strLe (AnaliseVendas.maxPorValor b l).1 p.1 = true
  | [], b, _, p, hp, _ => by
    rcases List.mem_cons.mp hp with h | h
    · rw [h]; exact lexLe_refl _
    · exact absurd h (by simp)
  | x :: rest, b, hpw, p, hp, hpt => by
    rw [List.pairwise_cons] at hpw
    obtain ⟨hb, hxr⟩ := hpw
    by_cases hbx : b.2 < x.2
    · simp only [AnaliseVendas.maxPorValor, if_pos hbx] at hpt ⊢
      rcases List.mem_cons.mp hp with h | h
      · exfalso
        have hlt : b.2 < (AnaliseVendas.maxPorValor x rest).2 :=
          lt_of_lt_of_le hbx (maxPorValor_ge rest x x (List.mem_cons_self x rest))
        rw [h] at hpt
        rw [hpt] at hlt
        exact lt_irrefl _ hlt
      · exact maxPorValor_primeiro rest x hxr p h hpt
    · simp only [AnaliseVendas.maxPorValor, if_neg hbx] at hpt ⊢
      have hbrest : (b :: rest).Pairwise (fun a c => strLe a.1 c.1 = true) := by
        rw [List.pairwise_cons]
        rw [List.pairwise_cons] at hxr
        exact ⟨fun y hy => hb y (List.mem_cons_of_mem x hy), hxr.2⟩
      rcases List.mem_cons.mp hp with h | h
      · exact maxPorValor_primeiro rest b hbrest p
          (by rw [h]; exact List.mem_cons_self b rest) hpt
      · rcases List.mem_cons.mp h with h1 | h1
        · rcases maxPorValor_eq_or_lt rest b with h2 | h2
          · rw [h2]
            rw [h1]
            exact hb x (List.mem_cons_self x rest)
          · exfalso
            have hxb : p.2 ≤ b.2 := by rw [h1]; exact le_of_not_lt hbx
            rw [hpt] at hxb
            exact absurd (lt_of_lt_of_le h2 hxb) (lt_irrefl _)
        · exact maxPorValor_primeiro rest b hbrest p (List.mem_cons_of_mem b h1) hpt

/-- C7.  `melhor_mes` returns the sentinel `(None, 0.0)` on an empty
ledger; on a non-empty ledger it returns a `(month, total)` pair of
`calcular_vendas_por_mes` whose total is maximal, and among months tied
for the maximal total it returns the earliest month (the smallest
`YYYY-MM` key of the ascending-ordered mapping). -/
theorem melhor_mes_spec (vendas : List AnaliseVendas.Venda) :
    (vendas = [] → AnaliseVendas.melhor_mes vendas = (none, 0)) ∧
    (vendas ≠ [] → ∃ mes total,
      AnaliseVendas.melhor_mes vendas = (some mes, total) ∧
      (mes, total) ∈ AnaliseVendas.calcular_vendas_por_mes vendas ∧
      (∀ p ∈ AnaliseVendas.calcular_vendas_por_mes vendas, p.2 ≤ total) ∧
      (∀ p ∈ AnaliseVendas.calcular_vendas_por_mes vendas,
        p.2 = total → strLe mes p.1 = true)) := by
  constructor
  · intro h; subst h; rfl
  · intro h
    have hne := por_mes_ne_nil vendas h
    rcases hpm : AnaliseVendas.calcular_vendas_por_mes vendas with _ | ⟨x, rest⟩
    · exact absurd hpm hne
    · have hpw : (x :: rest).Pairwise (fun a c => strLe a.1 c.1 = true) := by
        rw [← hpm]
        unfold AnaliseVendas.calcular_vendas_por_mes
        exact ordenaPorChave_pairwise _
      refine ⟨(AnaliseVendas.maxPorValor x rest).1, (AnaliseVendas.maxPorValor x rest).2,
        ?_, ?_, ?_, ?_⟩
      · unfold AnaliseVendas.melhor_mes
        rw [hpm]
      · simpa using maxPorValor_mem rest x
      · exact fun p hp => maxPorValor_ge rest x p hp
      · exact fun p hp hpt => maxPorValor_primeiro rest x hpw p hp hpt

/-- C7 (witness).  The theorem applied to the empty ledger (sentinel
case) and to the demonstration ledger (non-empty case). -/
theorem melhor_mes_spec_witness :
    AnaliseVendas.melhor_mes ([] : List AnaliseVendas.Venda) = (none, 0) ∧
    (∃ mes total,
      AnaliseVendas.melhor_mes demoVendas = (some mes, total) ∧
      (mes, total) ∈ AnaliseVendas.calcular_vendas_por_mes demoVendas ∧
      (∀ p ∈ AnaliseVendas.calcular_vendas_por_mes demoVendas, p.2 ≤ total) ∧
      (∀ p ∈ AnaliseVendas.calcular_vendas_por_mes demoVendas,
        p.2 = total → strLe mes p.1 = true)) :=
  ⟨(melhor_mes_spec []).1 rfl, (melhor_mes_spec demoVendas).2 (by decide)⟩
